import Mathlib

/-!
Shallow embedding of the cardano-smart-escrow transaction-status engine.

Source files embedded here:
- `src/lib/types.ts` — the `TX_STATUS` constants and the `Transaction` record.
- `src/lib/db.ts` — the SQLite-backed store: `upsertWallet` (INSERT OR IGNORE),
  `upsertTx` (INSERT OR REPLACE keyed by the `txHash` primary key),
  `updateTxStatus` (unconditional UPDATE ... WHERE txHash = ?).
- `src/app/api/webhooks/blockfrost/route.ts` — the webhook batch handler.
- the lock route, the unlock route and the submit route (POST handlers), and
  the client flow functions `lockFunds` / `unlockFunds` of
  `src/hooks/useTransactions.ts`, which call Build, Sign and Submit in order
  and abort on the first thrown error.

External collaborators (the Anvil build/submit API, the wallet signer) are
modelled as explicit outcome parameters: `none` stands for a failure (an error
field in the response or a thrown exception), `some v` for a success carrying
the collaborator's result. Time (`Date.now()`) is passed explicitly as a `Nat`.
The SQLite `transactions` table is a list of rows whose primary key `txHash`
is kept unique by the operations themselves, exactly as the PRIMARY KEY
constraint does.
-/

namespace Escrow

/-- Transaction status values, exactly the `TX_STATUS` constants of
`src/lib/types.ts` (`pending`, `signLock`, `signUnlock`, `confirmed`,
`unlocked`). -/
inductive TransactionStatus where
  | pending
  | signLock
  | signUnlock
  | confirmed
  | unlocked
deriving DecidableEq, Repr

/-- Lifecycle rank of a status, from the status table used by the claims
(AWAITING_LOCK_SIGNATURE/`signLock` = 0 < PENDING = 1 < CONFIRMED = 2 <
AWAITING_UNLOCK_SIGNATURE/`signUnlock` = 3 < UNLOCKED = 4). The code itself
stores plain status strings and defines no rank function. -/
def rank : TransactionStatus → Nat
  | .signLock => 0
  | .pending => 1
  | .confirmed => 2
  | .signUnlock => 3
  | .unlocked => 4

/-- A row of the `transactions` table (`Transaction` in `src/lib/types.ts`):
`txHash TEXT PRIMARY KEY, wallet, amount INTEGER, status, timestamp`. -/
structure Txn where
  txHash : String
  wallet : String
  amount : Int
  status : TransactionStatus
  timestamp : Nat
deriving DecidableEq, Repr

/-- The SQLite database of `src/lib/db.ts`: a `wallets(address PRIMARY KEY)`
table and a `transactions` table keyed by `txHash`. -/
structure Store where
  wallets : List String
  transactions : List Txn
deriving DecidableEq, Repr

/-- `upsertWallet(address)`: `INSERT OR IGNORE INTO wallets(address)` —
inserts the address if absent, no-op otherwise. -/
def upsertWallet (address : String) (s : Store) : Store :=
  if address ∈ s.wallets then s
  else { s with wallets := s.wallets ++ [address] }

/-- `upsertTx(txHash, wallet, amount, status)`:
`INSERT OR REPLACE INTO transactions(txHash, wallet, amount, status, timestamp)`.
Because `txHash` is the primary key, a conflicting row is deleted and the new
row — with the caller's wallet, amount and status, and `Date.now()` as the
timestamp — is inserted in its place. There is no rank comparison and no
immutability check. -/
def upsertTx (txHash wallet : String) (amount : Int) (status : TransactionStatus)
    (now : Nat) (s : Store) : Store :=
  { s with transactions :=
      { txHash := txHash, wallet := wallet, amount := amount,
        status := status, timestamp := now } ::
        s.transactions.filter (fun t => t.txHash != txHash) }

/-- Effect of `UPDATE transactions SET status = ?, timestamp = ? WHERE txHash = ?`
on one row: rewritten when its key matches, untouched otherwise. -/
def updateRow (txHash : String) (status : TransactionStatus) (now : Nat)
    (t : Txn) : Txn :=
  if t.txHash = txHash then { t with status := status, timestamp := now } else t

/-- `updateTxStatus(txHash, status)`:
`UPDATE transactions SET status = ?, timestamp = ? WHERE txHash = ?`.
An unconditional update: no rank comparison, and when no row has the key it
affects zero rows and reports no error. -/
def updateTxStatus (txHash : String) (status : TransactionStatus) (now : Nat)
    (s : Store) : Store :=
  { s with transactions := s.transactions.map (updateRow txHash status now) }

/-- Point lookup of the row keyed by `txHash` (the `SELECT ... WHERE txHash = ?`
view of the table used to state properties). -/
def getTx (txHash : String) (s : Store) : Option Txn :=
  s.transactions.find? (fun t => t.txHash == txHash)

/-- HTTP outcome of a route handler: `ok` is a 2xx JSON body, `clientError` a
400 response, `serverError` a 500 response. -/
inductive ApiResponse (α : Type) where
  | ok (value : α)
  | clientError (message : String)
  | serverError (message : String)
deriving DecidableEq, Repr

/-- One event of the Blockfrost webhook payload, reduced to the three accesses
the handler performs: `event.tx.hash` (the access throws when `tx` is absent,
there is no optional chaining on it), `event.inputs?.[0]?.address`, and the
`lovelace`-unit quantity of the first output after `Number(...)` conversion.
`none` stands for the JavaScript `undefined` produced by a missing field. -/
structure WebhookEvent where
  tx : Option String
  inputAddress : Option String
  lovelace : Option Int
deriving DecidableEq, Repr

/-- Body of the loop in `src/app/api/webhooks/blockfrost/route.ts` for a single
event: reading `event.tx.hash` throws a TypeError when `tx` is `undefined`
(`Except.error`); otherwise, when both the wallet address and the lovelace
quantity are present the handler runs `upsertWallet` and then
`upsertTx(txHash, wallet, Number(amount), TX_STATUS.CONFIRMED)`, and when
either is missing the event is skipped. -/
def processEvent (e : WebhookEvent) (now : Nat) (s : Store) : Except Unit Store :=
  match e.tx with
  | none => Except.error ()
  | some txHash =>
    match e.inputAddress, e.lovelace with
    | some wallet, some amount =>
        Except.ok (upsertTx txHash wallet amount TransactionStatus.confirmed now
          (upsertWallet wallet s))
    | _, _ => Except.ok s

/-- The webhook handler's `for (const event of body.payload)` loop together
with the `try { ... } catch` that wraps the WHOLE loop: the first event whose
processing throws ends the loop (the catch logs once at batch level), keeping
the effects of the events already processed; the handler then returns
`{ ok: true }` regardless. -/
def processBatch (events : List WebhookEvent) (now : Nat) (s : Store) : Store :=
  match events with
  | [] => s
  | e :: rest =>
    match processEvent e now s with
    | Except.error _ => s
    | Except.ok s' => processBatch rest now s'

/-- Request body of `POST /lock`: `{ changeAddress, amount, ownerKeyHash }`
(`message` is only forwarded to the builder). `none` models a missing/null
field, which the route rejects with 400. -/
structure LockRequest where
  changeAddress : Option String
  amount : Option Int
  ownerKeyHash : Option String
deriving DecidableEq, Repr

/-- The lock route `POST` handler. `buildResult` is the outcome of the
external `lockFunds` builder call: `some (txHash, complete)` on success, `none`
when the response has an error / missing fields or the call throws (both paths
return 500 without touching the store). On success the route runs
`upsertWallet(changeAddress)` then
`upsertTx(txHash, changeAddress, Number(amount), TX_STATUS.SIGN_LOCK)` and
returns `{ txHash, complete }`. -/
def lockPOST (req : LockRequest) (buildResult : Option (String × String))
    (now : Nat) (s : Store) : Store × ApiResponse (String × String) :=
  match req.changeAddress, req.amount, req.ownerKeyHash with
  | some changeAddress, some amount, some _ =>
    match buildResult with
    | none => (s, ApiResponse.serverError "Failed to build lock transaction")
    | some (txHash, complete) =>
        (upsertTx txHash changeAddress amount TransactionStatus.signLock now
           (upsertWallet changeAddress s),
         ApiResponse.ok (txHash, complete))
  | _, _, _ => (s, ApiResponse.clientError "Missing changeAddress, amount, or ownerKeyHash")

/-- Request body of `POST /unlock`: `{ txHash, changeAddress, ownerKeyHash, amount }`;
`none` models a missing/null field (the route checks
`!txHash || !changeAddress || !ownerKeyHash || amount == null`). -/
structure UnlockRequest where
  txHash : Option String
  changeAddress : Option String
  ownerKeyHash : Option String
  amount : Option Int
deriving DecidableEq, Repr

/-- The unlock route `POST` handler. `buildResult` is the outcome of the
external `unlockFunds` builder call: `some complete` on success, `none` when
the response has an error / no `complete` or the call throws (both paths
return 500 without touching the store). On a successful build the route runs
`upsertWallet(changeAddress)` and then — eagerly, before anything is signed or
submitted — `upsertTx(txHash, changeAddress, Number(amount), TX_STATUS.PENDING)`
on the ORIGINAL lock transaction's hash, and returns `{ complete }` for
client-side signing. -/
def unlockPOST (req : UnlockRequest) (buildResult : Option String)
    (now : Nat) (s : Store) : Store × ApiResponse String :=
  match req.txHash, req.changeAddress, req.ownerKeyHash, req.amount with
  | some txHash, some changeAddress, some _, some amount =>
    match buildResult with
    | none => (s, ApiResponse.serverError "Failed to build unlock transaction")
    | some complete =>
        (upsertTx txHash changeAddress amount TransactionStatus.pending now
           (upsertWallet changeAddress s),
         ApiResponse.ok complete)
  | _, _, _, _ =>
      (s, ApiResponse.clientError "Missing txHash, changeAddress, ownerKeyHash, or amount")

/-- Request body of `POST /submit`:
`{ complete, signature, type, originalTxHash? }` where `type` must be
`TX_STATUS.SIGN_LOCK` or `TX_STATUS.SIGN_UNLOCK`. -/
structure SubmitRequest where
  complete : Option String
  signature : Option String
  type : Option TransactionStatus
  originalTxHash : Option String
deriving DecidableEq, Repr

/-- The submit route `POST` handler. `submitResult` is the outcome of the
external `submitTransaction` call: `some resultTxHash` (the hash of the
submitted transaction) on success, `none` when it throws (caught, 500, no
write). Validation: missing `complete`/`signature` or a `type` other than
`signLock`/`signUnlock` is a 400; `type = signUnlock` without `originalTxHash`
is a 400. After a successful submission the route runs `updateTxStatus` on
`originalTxHash` with `UNLOCKED` for unlock submissions, and on the result's
own `txHash` with `PENDING` for lock submissions, then returns
`{ txHash: result.txHash }`. -/
def submitPOST (req : SubmitRequest) (submitResult : Option String)
    (now : Nat) (s : Store) : Store × ApiResponse String :=
  match req.complete, req.signature, req.type with
  | some _, some _, some TransactionStatus.signLock =>
    match submitResult with
    | none => (s, ApiResponse.serverError "Failed to submit transaction")
    | some resultTxHash =>
        (updateTxStatus resultTxHash TransactionStatus.pending now s,
         ApiResponse.ok resultTxHash)
  | some _, some _, some TransactionStatus.signUnlock =>
    match req.originalTxHash with
    | none => (s, ApiResponse.clientError "Missing originalTxHash for unlock transaction")
    | some originalTxHash =>
      match submitResult with
      | none => (s, ApiResponse.serverError "Failed to submit transaction")
      | some resultTxHash =>
          (updateTxStatus originalTxHash TransactionStatus.unlocked now s,
           ApiResponse.ok resultTxHash)
  | _, _, _ => (s, ApiResponse.clientError "Missing complete transaction or signature")

/-- The client lock flow `lockFunds` of `src/hooks/useTransactions.ts`,
projected onto its server-store effects: Build via `POST /lock` (whose handler
writes the `signLock` row on success), then Sign via the wallet handler
(`signResult`: `none` models a rejection or signer error, which throws and
aborts the flow), then Submit via `POST /submit` with `type = signLock`.
Any thrown error ends the flow; later steps never run. -/
def lockFlow (address ownerKeyHash : String) (amount : Int)
    (buildResult : Option (String × String)) (signResult : Option String)
    (submitResult : Option String) (t1 t2 : Nat) (s : Store) : Store :=
  match lockPOST { changeAddress := some address, amount := some amount,
                   ownerKeyHash := some ownerKeyHash } buildResult t1 s with
  | (s1, ApiResponse.ok (_, complete)) =>
    match signResult with
    | none => s1
    | some signedTx =>
        (submitPOST
        { complete := some complete, signature := some signedTx,
                      type := some TransactionStatus.signLock,
                      originalTxHash := none } submitResult t2 s1).1
  | (s1, _) => s1

/-- The client unlock flow `unlockFunds` of `src/hooks/useTransactions.ts`,
projected onto its server-store effects: Build via `POST /unlock` (whose
handler eagerly writes the `pending` row for the original `txHash` on
success), then Sign (`signResult = none` models a user rejection or signer
error, which throws and aborts the flow), then Submit via `POST /submit` with
`type = signUnlock` and `originalTxHash = txHash`. -/
def unlockFlow (txHash address ownerKeyHash : String) (amount : Int)
    (buildResult : Option String) (signResult : Option String)
    (submitResult : Option String) (t1 t2 : Nat) (s : Store) : Store :=
  match unlockPOST { txHash := some txHash, changeAddress := some address,
                     ownerKeyHash := some ownerKeyHash,
                     amount := some amount } buildResult t1 s with
  | (s1, ApiResponse.ok complete) =>
    match signResult with
    | none => s1
    | some signedTx =>
        (submitPOST
        { complete := some complete, signature := some signedTx,
                      type := some TransactionStatus.signUnlock,
                      originalTxHash := some txHash } submitResult t2 s1).1
  | (s1, _) => s1

/-- The settling predicate of `usePollingTransactions`
(`query.data.some(tx => tx.status === TX_STATUS.PENDING)`): true exactly when
some fetched transaction has status `pending`. -/
def hasPendingTx (data : List Txn) : Bool :=
  data.any (fun tx => tx.status == TransactionStatus.pending)

/-- The `refetchInterval` option of `usePollingTransactions`:
`wallet && hasPendingTx ? 5000 : false` — re-fetch every 5000 ms while a
wallet is set and the settling predicate holds, otherwise no further reads. -/
def refetchInterval (walletConnected : Bool) (hasPending : Bool) : Option Nat :=
  if walletConnected && hasPending then some 5000 else none

/-! Helper lemmas about the store operations. -/

theorem upsertWallet_transactions (a : String) (s : Store) :
    (upsertWallet a s).transactions = s.transactions := by
  unfold upsertWallet
  split <;> rfl

theorem mem_upsertWallet (a : String) (s : Store) :
    a ∈ (upsertWallet a s).wallets := by
  unfold upsertWallet
  split
  · assumption
  · simp

theorem upsertWallet_of_mem (a : String) (s : Store) (h : a ∈ s.wallets) :
    upsertWallet a s = s := by
  unfold upsertWallet
  simp [h]

theorem updateRow_txHash (t : String) (st : TransactionStatus) (now : Nat) (r : Txn) :
    (updateRow t st now r).txHash = r.txHash := by
  unfold updateRow
  split <;> rfl

theorem updateRow_wallet (t : String) (st : TransactionStatus) (now : Nat) (r : Txn) :
    (updateRow t st now r).wallet = r.wallet := by
  unfold updateRow
  split <;> rfl

theorem updateRow_amount (t : String) (st : TransactionStatus) (now : Nat) (r : Txn) :
    (updateRow t st now r).amount = r.amount := by
  unfold updateRow
  split <;> rfl

theorem find?_map_updateRow (key t : String) (st : TransactionStatus) (now : Nat)
    (l : List Txn) :
    (l.map (updateRow t st now)).find? (fun r => r.txHash == key)
      = (l.find? (fun r => r.txHash == key)).map (updateRow t st now) := by
  induction l with
  | nil => rfl
  | cons x xs ih =>
    by_cases hk : x.txHash = key
    · rw [List.map_cons,
        List.find?_cons_of_pos _ (by simp [updateRow_txHash, hk]),
        List.find?_cons_of_pos _ (by simp [hk])]
      rfl
    · rw [List.map_cons,
        List.find?_cons_of_neg _ (by simp [updateRow_txHash, hk]),
        List.find?_cons_of_neg _ (by simp [hk]), ih]

theorem getTx_updateTxStatus (key t : String) (st : TransactionStatus) (now : Nat)
    (s : Store) :
    getTx key (updateTxStatus t st now s)
      = (getTx key s).map (updateRow t st now) := by
  unfold getTx updateTxStatus
  exact find?_map_updateRow key t st now s.transactions

theorem getTx_txHash (t : String) (s : Store) (r : Txn) (h : getTx t s = some r) :
    r.txHash = t := by
  unfold getTx at h
  have := List.find?_some h
  simpa using this

theorem getTx_upsertTx_self (t w : String) (a : Int) (st : TransactionStatus)
    (now : Nat) (s : Store) :
    getTx t (upsertTx t w a st now s)
      = some { txHash := t, wallet := w, amount := a, status := st, timestamp := now } := by
  unfold getTx upsertTx
  rw [List.find?_cons_of_pos _ (by simp)]

theorem map_updateRow_id (t : String) (st : TransactionStatus) (now : Nat)
    (l : List Txn) (h : l.find? (fun r => r.txHash == t) = none) :
    l.map (updateRow t st now) = l := by
  induction l with
  | nil => rfl
  | cons x xs ih =>
    by_cases hx : x.txHash = t
    · rw [List.find?_cons_of_pos _ (by simp [hx])] at h
      exact absurd h (by simp)
    · rw [List.find?_cons_of_neg _ (by simp [hx])] at h
      rw [List.map_cons, ih h]
      have hrow : updateRow t st now x = x := by
        unfold updateRow
        rw [if_neg hx]
      rw [hrow]

theorem updateTxStatus_unknown (t : String) (st : TransactionStatus) (now : Nat)
    (s : Store) (h : getTx t s = none) :
    updateTxStatus t st now s = s := by
  unfold getTx at h
  unfold updateTxStatus
  rw [map_updateRow_id t st now s.transactions h]

theorem getTx_updateTxStatus_self (t : String) (st : TransactionStatus) (now : Nat)
    (s : Store) :
    getTx t (updateTxStatus t st now s)
      = (getTx t s).map (fun r => { r with status := st, timestamp := now }) := by
  rw [getTx_updateTxStatus]
  cases h : getTx t s with
  | none => rfl
  | some r =>
    have ht := getTx_txHash t s r h
    simp [updateRow, ht]

/-- C1 (counterexample): the stored status rank CAN decrease. Starting from an
empty store, the unlock route's build writes `T1` at `pending`, the submit
route advances `T1` to `unlocked` (rank 4), and a late webhook confirmation
event for `T1` is then applied by `upsertTx` with `confirmed` (rank 2) — the
lower-rank proposal is applied, not rejected. -/
theorem escrow_rank_decreases_cex :
    (getTx "T1" ((submitPOST
        { complete := some "c", signature := some "sig",
          type := some TransactionStatus.signUnlock, originalTxHash := some "T1" }
        (some "U1") 2
        ((unlockPOST
          { txHash := some "T1", changeAddress := some "W1",
            ownerKeyHash := some "KH", amount := some 100 }
          (some "cbor") 1 (Store.mk [] [])).1)).1)).map Txn.status
      = some TransactionStatus.unlocked
  ∧ (getTx "T1" (processBatch
        [{ tx := some "T1", inputAddress := some "W1", lovelace := some 100 }] 3
        ((submitPOST
          { complete := some "c", signature := some "sig",
            type := some TransactionStatus.signUnlock, originalTxHash := some "T1" }
          (some "U1") 2
          ((unlockPOST
            { txHash := some "T1", changeAddress := some "W1",
              ownerKeyHash := some "KH", amount := some 100 }
            (some "cbor") 1 (Store.mk [] [])).1)).1))).map Txn.status
      = some TransactionStatus.confirmed
  ∧ rank TransactionStatus.confirmed < rank TransactionStatus.unlocked := by
  decide

/-- C1 (amended): the code applies proposed statuses last-write-wins with no
rank comparison. `upsertTx` (used by the lock build, the unlock build and the
webhook confirmation) unconditionally replaces the stored row, so the stored
status of the key becomes the proposed one whatever was stored before; and
`updateTxStatus` (used by both submit paths) unconditionally rewrites the
status of the existing row with the key. Hence the stored rank is not
monotone: a lower-rank proposal is applied, not rejected. -/
theorem status_last_write_wins (t w : String) (a : Int) (st : TransactionStatus)
    (now : Nat) (s : Store) :
    (getTx t (upsertTx t w a st now s)).map Txn.status = some st ∧
    getTx t (updateTxStatus t st now s)
      = (getTx t s).map (fun r => { r with status := st, timestamp := now }) :=
  ⟨by rw [getTx_upsertTx_self]; rfl, getTx_updateTxStatus_self t st now s⟩

/-- C2 (counterexample): wallet and amount are NOT fixed at first creation.
The lock route creates `T1` with wallet `W1` and amount 100; an unlock request
for `T1` with a different `changeAddress` `W2` and amount 200 then runs
`upsertTx`, which replaces the row — it neither fails nor no-ops, and both
fields change. -/
theorem wallet_amount_overwritten_cex :
    (getTx "T1" ((lockPOST
        { changeAddress := some "W1", amount := some 100, ownerKeyHash := some "KH" }
        (some ("T1", "c1")) 1 (Store.mk [] [])).1)).map (fun r => (r.wallet, r.amount))
      = some ("W1", 100)
  ∧ (getTx "T1" ((unlockPOST
        { txHash := some "T1", changeAddress := some "W2",
          ownerKeyHash := some "KH2", amount := some 200 }
        (some "c2") 2
        ((lockPOST
          { changeAddress := some "W1", amount := some 100, ownerKeyHash := some "KH" }
          (some ("T1", "c1")) 1 (Store.mk [] [])).1)).1)).map (fun r => (r.wallet, r.amount))
      = some ("W2", 200) := by
  decide

/-- C2 (amended): `upsertTx` (the `createOrReplace` of the store) replaces the
whole row for an existing `txHash`: the stored wallet and amount become the
new call's values, with no failure and no no-op when they differ from the
existing ones. Only `updateTxStatus` leaves wallet and amount of every row
unchanged. -/
theorem upsertTx_replaces_updateTxStatus_preserves (t w : String) (a : Int)
    (st : TransactionStatus) (now : Nat) (s : Store) :
    getTx t (upsertTx t w a st now s)
      = some { txHash := t, wallet := w, amount := a, status := st, timestamp := now } ∧
    ∀ key, (getTx key (updateTxStatus t st now s)).map (fun r => (r.wallet, r.amount))
      = (getTx key s).map (fun r => (r.wallet, r.amount)) := by
  refine ⟨getTx_upsertTx_self t w a st now s, fun key => ?_⟩
  rw [getTx_updateTxStatus]
  cases getTx key s with
  | none => rfl
  | some r => simp [updateRow_wallet, updateRow_amount]

/-- C3 (counterexample): a Sign failure after a successful unlock Build does
NOT leave the record at its pre-flow status. `T1` is stored at `confirmed`
before the flow; the unlock route's build step eagerly replaces the row with
status `pending`, and when the signer then fails the flow aborts with `T1`
left at `pending`, not `confirmed`. -/
theorem unlock_sign_failure_cex :
    (getTx "T1" (Store.mk ["W1"]
        [{ txHash := "T1", wallet := "W1", amount := 100,
           status := TransactionStatus.confirmed, timestamp := 5 }])).map Txn.status
      = some TransactionStatus.confirmed
  ∧ (getTx "T1" (unlockFlow "T1" "W1" "KH" 100 (some "cbor") none none 6 7
        (Store.mk ["W1"]
          [{ txHash := "T1", wallet := "W1", amount := 100,
             status := TransactionStatus.confirmed, timestamp := 5 }]))).map Txn.status
      = some TransactionStatus.pending
  ∧ TransactionStatus.pending ≠ TransactionStatus.confirmed := by
  decide

/-- C3 (amended): when the unlock flow's Sign step fails after a successful
Build, the stored record for the original `txHash` is the row the unlock
route eagerly wrote at Build time — wallet = the request's `changeAddress`,
amount = the request's amount, status `PENDING` — rather than the record's
pre-flow status (they coincide only when the pre-flow row was already exactly
that). -/
theorem unlock_sign_failure_leaves_pending (txh addr okh : String) (amt : Int)
    (complete : String) (submitResult : Option String) (t1 t2 : Nat) (s : Store) :
    getTx txh (unlockFlow txh addr okh amt (some complete) none submitResult t1 t2 s)
      = some { txHash := txh, wallet := addr, amount := amt,
               status := TransactionStatus.pending, timestamp := t1 } := by
  show getTx txh (upsertTx txh addr amt TransactionStatus.pending t1 (upsertWallet addr s))
      = _
  exact getTx_upsertTx_self txh addr amt TransactionStatus.pending t1 (upsertWallet addr s)

/-- C4 (counterexample): a status proposal for a `txHash` absent from the
store is NOT rejected with an error. On the empty store, an unlock submission
for the unknown original hash `T9` leaves the store unchanged but the route
answers with success (`{ txHash: "U1" }`), because the SQL UPDATE simply
affects zero rows. -/
theorem unknown_tx_silent_success_cex :
    (submitPOST
        { complete := some "c", signature := some "sig",
          type := some TransactionStatus.signUnlock, originalTxHash := some "T9" }
        (some "U1") 1 (Store.mk [] [])).1 = Store.mk [] []
  ∧ (submitPOST
        { complete := some "c", signature := some "sig",
          type := some TransactionStatus.signUnlock, originalTxHash := some "T9" }
        (some "U1") 1 (Store.mk [] [])).2 = ApiResponse.ok "U1" := by
  decide

/-- C4 (amended): a status proposal for a `txHash` absent from the store is a
silent no-op, not an `UnknownTransaction` rejection: `updateTxStatus` affects
zero rows and raises no error, the store is left unchanged, and the submit
route responds with success. -/
theorem submit_unknown_silent_noop (t c sig rh : String) (st : TransactionStatus)
    (now : Nat) (s : Store) (h : getTx t s = none) :
    updateTxStatus t st now s = s ∧
    (submitPOST
        { complete := some c, signature := some sig,
          type := some TransactionStatus.signUnlock, originalTxHash := some t }
        (some rh) now s).1 = s ∧
    (submitPOST
        { complete := some c, signature := some sig,
          type := some TransactionStatus.signUnlock, originalTxHash := some t }
        (some rh) now s).2 = ApiResponse.ok rh := by
  refine ⟨updateTxStatus_unknown t st now s h, ?_, rfl⟩
  show updateTxStatus t TransactionStatus.unlocked now s = s
  exact updateTxStatus_unknown t TransactionStatus.unlocked now s h

/-- Witness for `submit_unknown_silent_noop` at the empty store and the
unknown hash `T9`. -/
theorem submit_unknown_silent_noop_witness :
    updateTxStatus "T9" TransactionStatus.confirmed 1 (Store.mk [] []) = Store.mk [] [] ∧
    (submitPOST
        { complete := some "c", signature := some "sig",
          type := some TransactionStatus.signUnlock, originalTxHash := some "T9" }
        (some "U1") 1 (Store.mk [] [])).1 = Store.mk [] [] :=
  ⟨(submit_unknown_silent_noop "T9" "c" "sig" "U1" TransactionStatus.confirmed 1
      (Store.mk [] []) rfl).1,
   (submit_unknown_silent_noop "T9" "c" "sig" "U1" TransactionStatus.confirmed 1
      (Store.mk [] []) rfl).2.1⟩

/-- C5 (counterexample): a failure while processing one webhook event ABORTS
the remaining events of the batch. The first event's `event.tx` is missing, so
the `event.tx.hash` access throws; the `try/catch` wraps the whole loop, so
the well-formed second event (`T2`) is never processed: the final store is
still empty and has no row for `T2`. -/
theorem webhook_batch_abort_cex :
    processBatch
        [{ tx := none, inputAddress := some "W1", lovelace := some 100 },
         { tx := some "T2", inputAddress := some "W2", lovelace := some 200 }]
        1 (Store.mk [] [])
      = Store.mk [] []
  ∧ getTx "T2" (processBatch
        [{ tx := none, inputAddress := some "W1", lovelace := some 100 },
         { tx := some "T2", inputAddress := some "W2", lovelace := some 200 }]
        1 (Store.mk [] []))
      = none := by
  decide

/-- C5 (amended): the webhook handler's `try/catch` wraps the whole batch
loop, so an error raised while processing a single event (a malformed-payload
access or a storage failure) is caught and logged once at batch level and
ABORTS processing of all remaining events, keeping only the effects of the
events already processed; a successfully processed event lets the batch
continue on the updated store. -/
theorem processBatch_error_aborts (e : WebhookEvent) (rest : List WebhookEvent)
    (now : Nat) (s s' : Store) :
    (processEvent e now s = Except.error () → processBatch (e :: rest) now s = s) ∧
    (processEvent e now s = Except.ok s' →
      processBatch (e :: rest) now s = processBatch rest now s') := by
  have hdef : processBatch (e :: rest) now s
      = match processEvent e now s with
        | Except.error _ => s
        | Except.ok s2 => processBatch rest now s2 := rfl
  constructor
  · intro h
    rw [hdef, h]
  · intro h
    rw [hdef, h]

/-- Witness for `processBatch_error_aborts`: a concrete batch headed by an
event with `tx` missing, and a concrete batch headed by a well-formed event. -/
theorem processBatch_error_aborts_witness :
    processBatch [{ tx := none, inputAddress := some "W1", lovelace := some 100 },
                  { tx := some "T2", inputAddress := some "W2", lovelace := some 200 }]
        1 (Store.mk [] []) = Store.mk [] [] ∧
    processBatch [{ tx := some "T2", inputAddress := some "W2", lovelace := some 200 }]
        1 (Store.mk [] [])
      = processBatch [] 1 (upsertTx "T2" "W2" 200 TransactionStatus.confirmed 1
          (upsertWallet "W2" (Store.mk [] []))) :=
  ⟨(processBatch_error_aborts
      { tx := none, inputAddress := some "W1", lovelace := some 100 }
      [{ tx := some "T2", inputAddress := some "W2", lovelace := some 200 }]
      1 (Store.mk [] []) (Store.mk [] [])).1 rfl,
   (processBatch_error_aborts
      { tx := some "T2", inputAddress := some "W2", lovelace := some 200 }
      [] 1 (Store.mk [] [])
      (upsertTx "T2" "W2" 200 TransactionStatus.confirmed 1
        (upsertWallet "W2" (Store.mk [] [])))).2 rfl⟩

theorem upsertTx_wallets (t w : String) (a : Int) (st : TransactionStatus)
    (now : Nat) (s : Store) :
    (upsertTx t w a st now s).wallets = s.wallets := rfl

theorem filter_bne_idem (t : String) (l : List Txn) :
    (l.filter (fun r => r.txHash != t)).filter (fun r => r.txHash != t)
      = l.filter (fun r => r.txHash != t) := by
  rw [List.filter_filter]
  simp [Bool.and_self]

theorem filter_beq_of_filter_bne (t : String) (l : List Txn) :
    (l.filter (fun r => r.txHash != t)).filter (fun r => r.txHash == t) = [] := by
  rw [List.filter_filter]
  have : ∀ r : Txn, ((r.txHash == t) && (r.txHash != t)) = false := by
    intro r
    by_cases hr : r.txHash = t <;> simp [hr]
  simp [this]

theorem store_eq (s1 s2 : Store) (hw : s1.wallets = s2.wallets)
    (ht : s1.transactions = s2.transactions) : s1 = s2 := by
  cases s1
  cases s2
  cases hw
  cases ht
  rfl

theorem upsertTx_transactions (t w : String) (a : Int) (st : TransactionStatus)
    (now : Nat) (s : Store) :
    (upsertTx t w a st now s).transactions
      = { txHash := t, wallet := w, amount := a, status := st, timestamp := now } ::
          s.transactions.filter (fun r => r.txHash != t) := rfl

theorem upsertTx_idem (t w : String) (a : Int) (st : TransactionStatus)
    (now : Nat) (s : Store) :
    upsertTx t w a st now (upsertTx t w a st now s) = upsertTx t w a st now s := by
  apply store_eq
  · rfl
  · rw [upsertTx_transactions, upsertTx_transactions, List.filter_cons]
    simp [filter_bne_idem]

/-- C6: in the lock flow, a Build failure writes nothing; a successful Build
creates the record with status `signLock` (AWAITING_LOCK_SIGNATURE); a flow
that then fails at Sign, or at Submit, leaves the record at `signLock`; and
the record is advanced to `PENDING` exactly when the Submit step succeeds
(returning the built transaction's hash). -/
theorem lockFlow_status_lifecycle (addr okh : String) (amt : Int)
    (txh complete signedTx : String) (signResult submitResult : Option String)
    (t1 t2 : Nat) (s : Store) :
    lockFlow addr okh amt none signResult submitResult t1 t2 s = s ∧
    getTx txh (lockFlow addr okh amt (some (txh, complete)) none submitResult t1 t2 s)
      = some { txHash := txh, wallet := addr, amount := amt,
               status := TransactionStatus.signLock, timestamp := t1 } ∧
    getTx txh (lockFlow addr okh amt (some (txh, complete)) (some signedTx) none t1 t2 s)
      = some { txHash := txh, wallet := addr, amount := amt,
               status := TransactionStatus.signLock, timestamp := t1 } ∧
    getTx txh (lockFlow addr okh amt (some (txh, complete)) (some signedTx) (some txh) t1 t2 s)
      = some { txHash := txh, wallet := addr, amount := amt,
               status := TransactionStatus.pending, timestamp := t2 } := by
  refine ⟨rfl, ?_, ?_, ?_⟩
  · show getTx txh (upsertTx txh addr amt TransactionStatus.signLock t1
        (upsertWallet addr s)) = _
    exact getTx_upsertTx_self txh addr amt TransactionStatus.signLock t1
      (upsertWallet addr s)
  · show getTx txh (upsertTx txh addr amt TransactionStatus.signLock t1
        (upsertWallet addr s)) = _
    exact getTx_upsertTx_self txh addr amt TransactionStatus.signLock t1
      (upsertWallet addr s)
  · show getTx txh (updateTxStatus txh TransactionStatus.pending t2
        (upsertTx txh addr amt TransactionStatus.signLock t1 (upsertWallet addr s))) = _
    rw [getTx_updateTxStatus_self, getTx_upsertTx_self]
    rfl

/-- C7: on a successful submission with `type = signUnlock`, the submit route
applies `UNLOCKED` to the original lock transaction's hash supplied as
`originalTxHash` — not to the newly submitted unlock transaction's own hash —
while for `type = signLock` it applies `PENDING` to the submitted
transaction's own hash (whatever `originalTxHash` field the request carries,
the lock path ignores it). -/
theorem submit_targets_original_on_unlock (c sig resHash origHash : String)
    (o : Option String) (now : Nat) (s : Store) :
    (submitPOST
        { complete := some c, signature := some sig,
          type := some TransactionStatus.signUnlock, originalTxHash := some origHash }
        (some resHash) now s)
      = (updateTxStatus origHash TransactionStatus.unlocked now s,
         ApiResponse.ok resHash) ∧
    (submitPOST
        { complete := some c, signature := some sig,
          type := some TransactionStatus.signLock, originalTxHash := o }
        (some resHash) now s)
      = (updateTxStatus resHash TransactionStatus.pending now s,
         ApiResponse.ok resHash) :=
  ⟨rfl, rfl⟩

/-- C8: processing the same webhook event twice (same `txHash`, wallet,
amount, at the same clock reading) is idempotent: the first application
succeeds with some store, the second application on that store succeeds and
returns it UNCHANGED, and that store holds exactly one transaction row for the
event's `txHash` — no duplicate row is created. -/
theorem webhook_event_idempotent (txh w : String) (q : Int) (now : Nat) (s : Store) :
    ∃ s1, processEvent { tx := some txh, inputAddress := some w, lovelace := some q } now s
        = Except.ok s1 ∧
      processEvent { tx := some txh, inputAddress := some w, lovelace := some q } now s1
        = Except.ok s1 ∧
      (s1.transactions.filter (fun r => r.txHash == txh)).length = 1 := by
  refine ⟨upsertTx txh w q TransactionStatus.confirmed now (upsertWallet w s),
    rfl, ?_, ?_⟩
  · show Except.ok (upsertTx txh w q TransactionStatus.confirmed now
        (upsertWallet w (upsertTx txh w q TransactionStatus.confirmed now
          (upsertWallet w s))))
      = _
    rw [upsertWallet_of_mem]
    · rw [upsertTx_idem]
    · rw [upsertTx_wallets]
      exact mem_upsertWallet w s
  · show (((upsertTx txh w q TransactionStatus.confirmed now
        (upsertWallet w s)).transactions).filter (fun r => r.txHash == txh)).length = 1
    unfold upsertTx
    rw [List.filter_cons]
    simp only [beq_self_eq_true, if_true]
    rw [filter_beq_of_filter_bne]
    rfl

/-- C9: the polling reader's refetch interval is 5000 ms (5 seconds) exactly
when the wallet is connected and some fetched transaction has status
`PENDING` — the source's two-state settling predicate — and is disabled
(`false`, i.e. no further reads) exactly when no fetched transaction is
`PENDING`; in particular a transaction whose rank reached `CONFIRMED` or
beyond no longer satisfies the predicate, so the next evaluation after the
data shows no pending transaction turns polling off. -/
theorem polling_predicate (data : List Txn) :
    (refetchInterval true (hasPendingTx data) = some 5000 ↔
      ∃ tx ∈ data, tx.status = TransactionStatus.pending) ∧
    (refetchInterval true (hasPendingTx data) = none ↔
      ∀ tx ∈ data, tx.status ≠ TransactionStatus.pending) := by
  unfold refetchInterval hasPendingTx
  cases hb : data.any (fun tx => tx.status == TransactionStatus.pending) with
  | true =>
    obtain ⟨tx, htx, hst⟩ := List.any_eq_true.mp hb
    have hpend : tx.status = TransactionStatus.pending := by simpa using hst
    constructor
    · simp only [Bool.and_true, if_true]
      exact ⟨fun _ => ⟨tx, htx, hpend⟩, fun _ => trivial⟩
    · simp only [Bool.and_true, if_true]
      constructor
      · intro habs
        exact absurd habs (by simp)
      · intro hall
        exact absurd hpend (hall tx htx)
  | false =>
    have hnone : ∀ tx ∈ data, tx.status ≠ TransactionStatus.pending := by
      intro tx htx hst
      have : data.any (fun tx => tx.status == TransactionStatus.pending) = true :=
        List.any_eq_true.mpr ⟨tx, htx, by simp [hst]⟩
      rw [hb] at this
      exact absurd this (by simp)
    constructor
    · simp only [Bool.and_false, if_false]
      constructor
      · intro habs
        exact absurd habs (by simp)
      · intro hex
        obtain ⟨tx, htx, hst⟩ := hex
        exact absurd hst (hnone tx htx)
    · simp only [Bool.and_false, if_false]
      exact ⟨fun _ => hnone, fun _ => rfl⟩

/-- C10: a `POST /unlock` request with all four fields present whose external
build step succeeds leaves the store with a row keyed by the request's
`txHash`, whose wallet is the request's `changeAddress`, whose amount is
`Number(amount)` from the request, and whose status is `PENDING` — for EVERY
prior store, including stores holding no transaction with that `txHash`
(`upsertTx` inserts the row in that case). -/
theorem unlock_build_creates_pending_row (txh addr okh : String) (amt : Int)
    (complete : String) (now : Nat) (s : Store) :
    getTx txh ((unlockPOST
        { txHash := some txh, changeAddress := some addr,
          ownerKeyHash := some okh, amount := some amt }
        (some complete) now s).1)
      = some { txHash := txh, wallet := addr, amount := amt,
               status := TransactionStatus.pending, timestamp := now } := by
  show getTx txh (upsertTx txh addr amt TransactionStatus.pending now
      (upsertWallet addr s)) = _
  exact getTx_upsertTx_self txh addr amt TransactionStatus.pending now
    (upsertWallet addr s)

end Escrow
